import Mathlib

/-!
Verification of the data-processing core of the draw_curve repository
(`src/utils/data_processor.py`): the input parser `parse_input_data`, the
curve smoother `smooth_curve`, and `calculate_statistics`.

Python floats are modelled as rationals (every number appearing in the
spec examples is exactly representable).  Python strings are modelled as
`List Char`, with the handful of string primitives the code uses
(`strip`, `split`, `startswith`, `float`) given structurally recursive
models so that everything evaluates inside the kernel.  The scipy
interpolation routines behind the advanced methods are external library
calls that may raise; they are modelled abstractly by an `InterpLib`
record, while linear interpolation (which the fallback path uses) is
modelled concretely by its standard piecewise-linear semantics.
-/

deriving instance DecidableEq for Except

namespace DrawCurve

/-- Errors surfaced by the core.  `parseError n d` models the re-raised
`ValueError` of `parse_input_data`, carrying the 1-based line number `n`
and the detail text `d` embedded in the message: the whole line in the
too-few-tokens branch, and the offending token (from the `float`
exception text) in the float-conversion branch.  `unsupportedMethod` is
in the spec taxonomy but is shown below never to escape `smooth_curve`. -/
inductive DPError where
  | parseError (lineNum : Nat) (detail : List Char)
  | insufficientData
  | insufficientPoints
  | unsupportedMethod (m : List Char)
  deriving DecidableEq

/-- The whitespace characters of Python `str.strip`. -/
def isWS (c : Char) : Bool := c = ' ' || c = '\t' || c = '\n' || c = '\r'

/-- Model of Python `str.strip()`: drop whitespace from both ends. -/
def strip (cs : List Char) : List Char :=
  ((cs.dropWhile isWS).reverse.dropWhile isWS).reverse

/-- Model of Python `s.split(sep)` for a one-character separator: split at
every occurrence, keeping empty parts (`"1  2".split(' ') = ['1','','2']`). -/
def splitOnChar (sep : Char) : List Char → List (List Char)
  | [] => [[]]
  | c :: rest =>
    match splitOnChar sep rest with
    | [] => [[]]
    | t :: ts => if c = sep then [] :: t :: ts else (c :: t) :: ts

/-- Value of a list of decimal digit characters. -/
def digitsVal (cs : List Char) : Nat :=
  cs.foldl (fun a c => a * 10 + (c.toNat - 48)) 0

/-- Model of Python `float(s)` on plain decimal literals: surrounding
whitespace ignored, optional sign, integer digits with an optional
fractional part, at least one digit overall.  `none` models `float`
raising `ValueError` (in particular on the empty string and on `"abc"`). -/
def pyFloat (s : List Char) : Option ℚ :=
  let cs := strip s
  let sgn : ℚ := match cs with
    | '-' :: _ => -1
    | _ => 1
  let body : List Char := match cs with
    | '-' :: rest => rest
    | '+' :: rest => rest
    | rest => rest
  let ip := body.takeWhile Char.isDigit
  let rest := body.dropWhile Char.isDigit
  match rest with
  | [] => if ip.isEmpty then none else some (sgn * digitsVal ip)
  | '.' :: fp =>
    if fp.all Char.isDigit && !(ip.isEmpty && fp.isEmpty) then
      some (sgn * ((digitsVal ip : ℚ) + (digitsVal fp : ℚ) / (10 : ℚ) ^ fp.length))
    else none
  | _ => none

/-- The separators in the priority order the loop of `parse_input_data`
tries them: space, comma, tab, semicolon. -/
def seps : List Char := [' ', ',', '\t', ';']

/-- The separator loop of `parse_input_data`: try the separators in order
and keep the first split that has at least two parts; when none does, the
loop leaves the last split (on `';'`) behind. -/
def splitAny (line : List Char) : List (List Char) :=
  let p1 := splitOnChar ' ' line
  if 2 ≤ p1.length then p1 else
  let p2 := splitOnChar ',' line
  if 2 ≤ p2.length then p2 else
  let p3 := splitOnChar '\t' line
  if 2 ≤ p3.length then p3 else
  splitOnChar ';' line

/-- One non-skipped line of `parse_input_data`: split, require two tokens,
convert the first two with `float`.  The too-few-tokens `ValueError`
carries the whole line; a failed `float` conversion carries the offending
token (both are wrapped into the line-numbered re-raise). -/
def parseLine (n : Nat) (line : List Char) : Except DPError (ℚ × ℚ) :=
  let parts := splitAny line
  if parts.length < 2 then .error (.parseError n line)
  else
    match pyFloat (parts.headD []) with
    | none => .error (.parseError n (parts.headD []))
    | some x =>
      match pyFloat ((parts.drop 1).headD []) with
      | none => .error (.parseError n ((parts.drop 1).headD []))
      | some y => .ok (x, y)

/-- Whether `parse_input_data` skips a stripped line (blank or `#`
comment). -/
def lineSkipped (l : List Char) : Bool :=
  let line := strip l
  line.isEmpty || line.headD ' ' = '#'

/-- The line loop of `parse_input_data`: lines are numbered from `n`,
blank lines and `#` comment lines are skipped, and the first failing line
aborts the whole parse. -/
def parseLines (n : Nat) : List (List Char) → Except DPError (List (ℚ × ℚ))
  | [] => .ok []
  | l :: rest =>
    if lineSkipped l then parseLines (n + 1) rest
    else
      match parseLine n (strip l) with
      | .error e => .error e
      | .ok p =>
        match parseLines (n + 1) rest with
        | .error e => .error e
        | .ok ps => .ok (p :: ps)

/-- The strict-increase check `all(x[i] < x[i+1] ...)` of
`parse_input_data`. -/
def strictlyIncreasing (xs : List ℚ) : Bool :=
  (xs.zip xs.tail).all fun p => decide (p.1 < p.2)

/-- The order `sorted(zip(x_list, y_list), key=lambda p: p[0])` sorts by:
points are compared by their x value only. -/
def keyLE (a b : ℚ × ℚ) : Prop := a.1 ≤ b.1

instance : DecidableRel keyLE := fun a b => inferInstanceAs (Decidable (a.1 ≤ b.1))

instance : IsTotal (ℚ × ℚ) keyLE := ⟨fun a b => le_total a.1 b.1⟩

instance : IsTrans (ℚ × ℚ) keyLE := ⟨fun _ _ _ h1 h2 => le_trans h1 h2⟩

/-- Model of `parse_input_data`: strip the text, split it into lines,
parse them, require at least two points, and if the x values are not
already strictly increasing, stably sort the points by x.  Python
`sorted` is a stable sort, and a stable sort by a key is unique, so
`List.insertionSort` by the key order computes exactly its result. -/
def parse_input_data (input : List Char) : Except DPError (List ℚ × List ℚ) :=
  match parseLines 1 (splitOnChar '\n' (strip input)) with
  | .error e => .error e
  | .ok pts =>
    if pts.length < 2 then .error .insufficientData
    else if strictlyIncreasing (pts.map Prod.fst) then
      .ok (pts.map Prod.fst, pts.map Prod.snd)
    else
      let spts := pts.insertionSort keyLE
      .ok (spts.map Prod.fst, spts.map Prod.snd)

/-- Python `min` over a nonempty list (the empty case is unreachable in
`smooth_curve`, which checks the length first). -/
def listMin : List ℚ → ℚ
  | [] => 0
  | x :: xs => xs.foldl min x

/-- Python `max` over a nonempty list. -/
def listMax : List ℚ → ℚ
  | [] => 0
  | x :: xs => xs.foldl max x

/-- Model of `numpy.linspace a b n`: `n` evenly spaced samples from `a`
to `b`, endpoints included. -/
def linspace (a b : ℚ) (n : Nat) : List ℚ :=
  (List.range n).map fun i : ℕ => a + (b - a) * (i : ℚ) / ((n : ℚ) - 1)

/-- Model of `scipy.interpolate.interp1d(x, y, kind=linear)` evaluated at
`t`: standard piecewise-linear interpolation through consecutive points. -/
def linearInterp : List (ℚ × ℚ) → ℚ → ℚ
  | [], _ => 0
  | [(_, y)], _ => y
  | (x1, y1) :: (x2, y2) :: rest, t =>
    if t ≤ x2 then y1 + (y2 - y1) * (t - x1) / (x2 - x1)
    else linearInterp ((x2, y2) :: rest) t

/-- Abstract model of the scipy routines behind the advanced methods:
each takes the data lists and the sample points and either returns the
sampled values or fails (an exception at construction or evaluation
time). -/
structure InterpLib where
  quadratic : List ℚ → List ℚ → List ℚ → Except String (List ℚ)
  cubic : List ℚ → List ℚ → List ℚ → Except String (List ℚ)
  akima : List ℚ → List ℚ → List ℚ → Except String (List ℚ)

/-- The body of the `try` block of `smooth_curve`: dispatch on the method
name, build the interpolant and evaluate it at the sample points.  An
unknown method name raises — inside the `try`. -/
def dispatch (lib : InterpLib) (xs ys sx : List ℚ) (method : String) :
    Except String (List ℚ) :=
  if method = "linear" then .ok (sx.map (linearInterp (xs.zip ys)))
  else if method = "quadratic" then lib.quadratic xs ys sx
  else if method = "cubic" then lib.cubic xs ys sx
  else if method = "akima" then lib.akima xs ys sx
  else .error ("不支持的插值方法: " ++ method)

/-- Model of `smooth_curve`: require two points, build the evenly spaced
sample grid, run the dispatched interpolation, and on ANY exception of
the `try` block fall back to linear interpolation on the same inputs. -/
def smooth_curve (lib : InterpLib) (xs ys : List ℚ) (method : String)
    (num_points : Nat) : Except DPError (List ℚ × List ℚ) :=
  if xs.length < 2 then .error .insufficientPoints
  else
    let sx := linspace (listMin xs) (listMax xs) num_points
    match dispatch lib xs ys sx method with
    | .ok sy => .ok (sx, sy)
    | .error _ => .ok (sx, sx.map (linearInterp (xs.zip ys)))

/-- The four supported method names. -/
def supportedMethods : List String := ["linear", "quadratic", "cubic", "akima"]

/-- A well-behaved interpolation library returns one sampled value per
sample point whenever it succeeds (scipy interpolants have this shape). -/
def LibWf (lib : InterpLib) : Prop :=
  ∀ xs ys sx sy,
    (lib.quadratic xs ys sx = .ok sy → sy.length = sx.length) ∧
    (lib.cubic xs ys sx = .ok sy → sy.length = sx.length) ∧
    (lib.akima xs ys sx = .ok sy → sy.length = sx.length)

/-- A library whose advanced methods always raise. -/
def failLib : InterpLib :=
  ⟨fun _ _ _ => .error "fail", fun _ _ _ => .error "fail",
   fun _ _ _ => .error "fail"⟩

/-- The statistics record of `calculate_statistics`. -/
structure StatsSummary where
  minV : ℚ
  maxV : ℚ
  mean : ℚ
  count : Nat
  deriving DecidableEq

/-- Model of `calculate_statistics`: Python `min`/`max`/`sum`/`len`;
`min` and `max` raise on an empty list, modelled as `none`. -/
def calculate_statistics (ys : List ℚ) : Option StatsSummary :=
  match ys with
  | [] => none
  | y :: t =>
    some ⟨t.foldl min y, t.foldl max y,
      (y :: t).sum / ((y :: t).length : ℚ), (y :: t).length⟩

/-- When a non-skipped line fails float conversion, the token the failure
is raised on: the first token if it does not convert, otherwise the
second if that one does not; `none` when the line has fewer than two
tokens (a different error branch) or both tokens convert. -/
def floatFailToken (line : List Char) : Option (List Char) :=
  let parts := splitAny line
  if parts.length < 2 then none
  else
    match pyFloat (parts.headD []) with
    | none => some (parts.headD [])
    | some _ =>
      match pyFloat ((parts.drop 1).headD []) with
      | none => some ((parts.drop 1).headD [])
      | some _ => none

/-! ### Helper lemmas -/

/-- The Boolean strict-increase check certifies the chain of strict
inequalities. -/
theorem strictlyIncreasing_iff_chain :
    ∀ xs : List ℚ, strictlyIncreasing xs = true ↔ List.Chain' (· < ·) xs
  | [] => by simp [strictlyIncreasing]
  | [a] => by simp [strictlyIncreasing]
  | a :: b :: t => by
    have ih := strictlyIncreasing_iff_chain (b :: t)
    simp only [strictlyIncreasing, List.tail_cons, List.zip_cons_cons,
      List.all_cons, Bool.and_eq_true, decide_eq_true_eq] at ih ⊢
    rw [List.chain'_cons, ih]

/-- A strictly increasing list is pairwise `≤`-ordered. -/
theorem pairwise_le_of_strictlyIncreasing {xs : List ℚ}
    (h : strictlyIncreasing xs = true) : xs.Pairwise (· ≤ ·) :=
  (List.chain'_iff_pairwise.mp ((strictlyIncreasing_iff_chain xs).mp h)).imp
    le_of_lt

/-- Stability of the sort in `parse_input_data`: the points carrying any
given x value keep their original relative order. -/
theorem insertionSort_filter_key (pts : List (ℚ × ℚ)) (q : ℚ) :
    (pts.insertionSort keyLE).filter (fun p => decide (p.1 = q)) =
      pts.filter (fun p => decide (p.1 = q)) := by
  have hpw : (pts.filter (fun p => decide (p.1 = q))).Pairwise keyLE := by
    apply List.pairwise_of_forall_mem_list
    intro a ha b hb
    have ha2 := (List.mem_filter.mp ha).2
    have hb2 := (List.mem_filter.mp hb).2
    simp only [decide_eq_true_eq] at ha2 hb2
    show a.1 ≤ b.1
    rw [ha2, hb2]
  have hsub : List.Sublist (pts.filter (fun p => decide (p.1 = q)))
      (pts.insertionSort keyLE) :=
    List.sublist_insertionSort hpw (List.filter_sublist pts)
  have hsub2 := hsub.filter (fun p => decide (p.1 = q))
  rw [List.filter_filter] at hsub2
  simp only [Bool.and_self] at hsub2
  have hperm := (List.perm_insertionSort keyLE pts).filter (fun p => decide (p.1 = q))
  exact (hsub2.eq_of_length hperm.length_eq.symm).symm

/-- Unfolding `parse_input_data` on the sorting path. -/
theorem parse_input_data_ok_sorted {input : List Char} {pts : List (ℚ × ℚ)}
    (h : parseLines 1 (splitOnChar '\n' (strip input)) = .ok pts)
    (h2 : ¬ pts.length < 2)
    (h3 : strictlyIncreasing (pts.map Prod.fst) = false) :
    parse_input_data input =
      .ok ((pts.insertionSort keyLE).map Prod.fst,
        (pts.insertionSort keyLE).map Prod.snd) := by
  unfold parse_input_data
  rw [h]
  simp [h2, h3]

/-- A failed float conversion surfaces as a `parseError` carrying the line
number and the offending token. -/
theorem parseLine_float_fail {line t : List Char} (n : Nat)
    (h : floatFailToken line = some t) :
    parseLine n line = .error (.parseError n t) := by
  simp only [floatFailToken] at h
  simp only [parseLine]
  by_cases hlen : (splitAny line).length < 2
  · simp [hlen] at h
  · simp only [if_neg hlen] at h ⊢
    cases h1 : pyFloat ((splitAny line).headD []) with
    | none =>
      rw [h1] at h
      simp only [Option.some.injEq] at h
      rw [h]
    | some x =>
      rw [h1] at h
      cases h2 : pyFloat (((splitAny line).drop 1).headD []) with
      | none =>
        rw [h2] at h
        simp only [Option.some.injEq] at h
        rw [h]
      | some y => rw [h2] at h; exact absurd h (by simp)

/-- The line loop reports the first failing line under its 1-based number
(counting skipped lines as well), with the offending token. -/
theorem parseLines_fail_at (t : List Char) :
    ∀ (pre : List (List Char)) (n : Nat) (l : List Char)
      (post : List (List Char)),
    (∀ l' ∈ pre, lineSkipped l' = true ∨ ∃ p, ∀ k, parseLine k (strip l') = .ok p) →
    lineSkipped l = false →
    floatFailToken (strip l) = some t →
    parseLines n (pre ++ l :: post) = .error (.parseError (n + pre.length) t)
  | [], n, l, post, _, hl, ht => by
    simp only [List.nil_append, parseLines, hl, Bool.false_eq_true, if_false,
      List.length_nil, Nat.add_zero]
    rw [parseLine_float_fail n ht]
  | l' :: pre, n, l, post, hpre, hl, ht => by
    have hrec := parseLines_fail_at t pre (n + 1) l post
      (fun x hx => hpre x (List.mem_cons_of_mem _ hx)) hl ht
    have harith : (n + 1) + pre.length = n + (l' :: pre).length := by
      simp only [List.length_cons]
      omega
    cases hsk : lineSkipped l' with
    | true =>
      simp only [List.cons_append, parseLines, hsk, if_true, List.append_eq]
      rw [hrec, harith]
    | false =>
      rcases hpre l' (List.mem_cons_self _ _) with hskip | ⟨p, hp⟩
      · rw [hsk] at hskip
        exact absurd hskip (by simp)
      · simp only [List.cons_append, parseLines, hsk, Bool.false_eq_true,
          if_false, List.append_eq]
        rw [hp n, hrec, harith]

/-- The running minimum is one of the values seen. -/
theorem foldl_min_mem : ∀ (t : List ℚ) (y : ℚ), t.foldl min y ∈ y :: t := by
  intro t
  induction t with
  | nil => intro y; simp
  | cons a t ih =>
    intro y
    have h := ih (min y a)
    simp only [List.foldl_cons]
    rcases List.mem_cons.mp h with h1 | h1
    · rw [h1]
      rcases min_choice y a with hc | hc <;> rw [hc] <;> simp
    · simp [h1]

/-- The running minimum is a lower bound of the values seen. -/
theorem foldl_min_le : ∀ (t : List ℚ) (y : ℚ), ∀ a ∈ y :: t, t.foldl min y ≤ a := by
  intro t
  induction t with
  | nil =>
    intro y a ha
    simp only [List.foldl_nil]
    have h : a = y := by simpa using ha
    exact le_of_eq h.symm
  | cons b t ih =>
    intro y a ha
    simp only [List.foldl_cons]
    have hy := ih (min y b) _ (List.mem_cons_self _ _)
    rcases List.mem_cons.mp ha with h1 | h1
    · exact hy.trans ((min_le_left y b).trans (le_of_eq h1.symm))
    · rcases List.mem_cons.mp h1 with h2 | h2
      · exact hy.trans ((min_le_right y b).trans (le_of_eq h2.symm))
      · exact ih (min y b) a (List.mem_cons_of_mem _ h2)

/-- The running maximum is one of the values seen. -/
theorem foldl_max_mem : ∀ (t : List ℚ) (y : ℚ), t.foldl max y ∈ y :: t := by
  intro t
  induction t with
  | nil => intro y; simp
  | cons a t ih =>
    intro y
    have h := ih (max y a)
    simp only [List.foldl_cons]
    rcases List.mem_cons.mp h with h1 | h1
    · rw [h1]
      rcases max_choice y a with hc | hc <;> rw [hc] <;> simp
    · simp [h1]

/-- The running maximum is an upper bound of the values seen. -/
theorem foldl_le_max : ∀ (t : List ℚ) (y : ℚ), ∀ a ∈ y :: t, a ≤ t.foldl max y := by
  intro t
  induction t with
  | nil =>
    intro y a ha
    simp only [List.foldl_nil]
    have h : a = y := by simpa using ha
    exact le_of_eq h
  | cons b t ih =>
    intro y a ha
    simp only [List.foldl_cons]
    have hy := ih (max y b) _ (List.mem_cons_self _ _)
    rcases List.mem_cons.mp ha with h1 | h1
    · exact ((le_of_eq h1).trans (le_max_left y b)).trans hy
    · rcases List.mem_cons.mp h1 with h2 | h2
      · exact ((le_of_eq h2).trans (le_max_right y b)).trans hy
      · exact ih (max y b) a (List.mem_cons_of_mem _ h2)

/-- The sample grid has exactly `n` points. -/
theorem linspace_length (a b : ℚ) (n : Nat) : (linspace a b n).length = n := by
  rw [linspace, List.length_map, List.length_range]

/-- The `i`-th sample of the grid, by the even-spacing formula. -/
theorem linspace_getElem (a b : ℚ) (n i : Nat) (h : i < n) :
    (linspace a b n)[i]? = some (a + (b - a) * i / ((n : ℚ) - 1)) := by
  rw [linspace, List.getElem?_map, List.getElem?_range h, Option.map_some']

/-- Dispatch equation: the `linear` branch uses the concrete
piecewise-linear model and cannot fail. -/
theorem dispatch_linear (lib : InterpLib) (xs ys sx : List ℚ) :
    dispatch lib xs ys sx "linear" = .ok (sx.map (linearInterp (xs.zip ys))) := rfl

/-- Dispatch equation for the `quadratic` branch. -/
theorem dispatch_quadratic (lib : InterpLib) (xs ys sx : List ℚ) :
    dispatch lib xs ys sx "quadratic" = lib.quadratic xs ys sx := rfl

/-- Dispatch equation for the `cubic` branch. -/
theorem dispatch_cubic (lib : InterpLib) (xs ys sx : List ℚ) :
    dispatch lib xs ys sx "cubic" = lib.cubic xs ys sx := rfl

/-- Dispatch equation for the `akima` branch. -/
theorem dispatch_akima (lib : InterpLib) (xs ys sx : List ℚ) :
    dispatch lib xs ys sx "akima" = lib.akima xs ys sx := rfl

/-- The failing library is trivially well-behaved. -/
theorem failLib_wf : LibWf failLib := by
  intro xs ys sx sy
  refine ⟨?_, ?_, ?_⟩ <;> intro h <;> exact absurd h (by simp [failLib])

/-! ### Claim theorems -/

unseal Rat.mul Rat.inv Rat.add Rat.sub in
/-- C1: the claim says an unsupported method name fails with
`UnsupportedMethodError` before touching the data.  In the code the
corresponding `raise` sits inside the `try` block whose bare `except`
catches every exception, so the raised error is swallowed and the smoother
returns the linear fallback curve instead — for every library behaviour.
At the failing input (points `(0,0),(1,1)`, method `"foo"`, 3 samples) the
result is the linear curve `[0, 1/2, 1]`, not an error. -/
theorem smooth_unsupported_method_returns_curve (lib : InterpLib) :
    smooth_curve lib [0, 1] [0, 1] "foo" 3 = .ok ([0, 1/2, 1], [0, 1/2, 1]) := rfl

unseal Rat.mul Rat.inv Rat.add Rat.sub in
/-- C2 counterexample: on the input `"1 1\n1 2"` (two points with equal x)
the parser succeeds and returns `x = [1, 1]`, which is not strictly
increasing — sorting cannot separate equal values, so the claimed
invariant fails exactly in the equal-x case the claim singles out. -/
theorem parser_duplicate_x_not_strict :
    parse_input_data "1 1\n1 2".toList = .ok ([1, 1], [1, 2]) ∧
      ¬ ([1, 1] : List ℚ).Pairwise (· < ·) ∧
      strictlyIncreasing [1, 1] = false := by decide

/-- C2 (amended): for every input the parser accepts, the returned x
sequence is non-decreasing (sorted); it is strictly increasing only when
the parsed x values are pairwise distinct. -/
theorem parser_x_nondecreasing (input : List Char) (xs ys : List ℚ)
    (h : parse_input_data input = .ok (xs, ys)) : xs.Pairwise (· ≤ ·) := by
  unfold parse_input_data at h
  cases hp : parseLines 1 (splitOnChar '\n' (strip input)) with
  | error e =>
    rw [hp] at h
    exact absurd h (by simp)
  | ok pts =>
    rw [hp] at h
    dsimp only at h
    by_cases hlen : pts.length < 2
    · rw [if_pos hlen] at h
      exact absurd h (by simp)
    · rw [if_neg hlen] at h
      by_cases hsi : strictlyIncreasing (pts.map Prod.fst) = true
      · rw [if_pos hsi] at h
        simp only [Except.ok.injEq, Prod.mk.injEq] at h
        rw [← h.1]
        exact pairwise_le_of_strictlyIncreasing hsi
      · rw [if_neg hsi] at h
        simp only [Except.ok.injEq, Prod.mk.injEq] at h
        rw [← h.1, List.pairwise_map]
        exact List.sorted_insertionSort keyLE pts

unseal Rat.mul Rat.inv Rat.add Rat.sub in
/-- Witness for C2 (amended) at the out-of-order spec example. -/
theorem parser_x_nondecreasing_witness :
    (parse_input_data "3 9\n1 1\n2 4".toList = .ok ([1, 2, 3], [1, 4, 9])) ∧
      ([1, 2, 3] : List ℚ).Pairwise (· ≤ ·) :=
  ⟨by decide,
   parser_x_nondecreasing "3 9\n1 1\n2 4".toList [1, 2, 3] [1, 4, 9] (by decide)⟩

/-- C7: whenever the line loop yields fewer than two points, the parser
fails with the insufficient-data error. -/
theorem parser_insufficient_data (input : List Char) (pts : List (ℚ × ℚ))
    (hp : parseLines 1 (splitOnChar '\n' (strip input)) = .ok pts)
    (hlen : pts.length < 2) :
    parse_input_data input = .error .insufficientData := by
  unfold parse_input_data
  rw [hp]
  simp [hlen]

unseal Rat.mul Rat.inv Rat.add Rat.sub in
/-- Witness for C7: a single valid line parses to one point and is
rejected with the insufficient-data error. -/
theorem parser_insufficient_data_witness :
    (parseLines 1 (splitOnChar '\n' (strip "1 2".toList)) = .ok [(1, 2)]) ∧
      (([(1, 2)] : List (ℚ × ℚ)).length < 2) ∧
      parse_input_data "1 2".toList = .error .insufficientData :=
  ⟨by decide, by decide,
   parser_insufficient_data "1 2".toList [(1, 2)] (by decide) (by decide)⟩

unseal Rat.mul Rat.inv Rat.add Rat.sub in
/-- C9: on every non-empty list, `calculate_statistics` returns a record
whose fields are the minimum, the maximum, the mean `sum/len` and the
count of the input; on `[1, 2, 3, 4]` it returns
`{min 1, max 4, mean 5/2, count 4}`. -/
theorem statistics_min_max_mean_count (y : ℚ) (t : List ℚ) :
    ∃ s, calculate_statistics (y :: t) = some s ∧
      s.minV ∈ y :: t ∧ (∀ a ∈ y :: t, s.minV ≤ a) ∧
      s.maxV ∈ y :: t ∧ (∀ a ∈ y :: t, a ≤ s.maxV) ∧
      s.mean = (y :: t).sum / ((y :: t).length : ℚ) ∧
      s.count = (y :: t).length ∧
      calculate_statistics [1, 2, 3, 4] = some ⟨1, 4, 5/2, 4⟩ :=
  ⟨_, rfl, foldl_min_mem t y, foldl_min_le t y, foldl_max_mem t y,
   foldl_le_max t y, rfl, rfl, by decide⟩

unseal Rat.mul Rat.inv Rat.add Rat.sub in
/-- C10: on the line `"1  2"` (two spaces) splitting on the first matching
separator (space) produces the empty middle token, `float` of the empty
string fails, and the parser reports a `parseError` for line 1 carrying
that empty token — instead of returning the two numbers. -/
theorem parser_double_space_parse_error :
    parse_input_data "1  2".toList = .error (.parseError 1 []) ∧
      splitAny "1  2".toList = ["1".toList, [], "2".toList] ∧
      pyFloat [] = none := by decide

/-- C3: for every supported method, whenever the dispatched interpolation
fails (construction or evaluation), `smooth_curve` returns the linear
interpolation of the same inputs on the same grid instead of propagating
the error — the fallback is method-name-independent. -/
theorem smooth_fallback_to_linear (lib : InterpLib) (xs ys : List ℚ)
    (m : String) (n : Nat) (e : String)
    (h2 : 2 ≤ xs.length) (_hm : m ∈ supportedMethods)
    (hd : dispatch lib xs ys (linspace (listMin xs) (listMax xs) n) m = .error e) :
    smooth_curve lib xs ys m n =
      .ok (linspace (listMin xs) (listMax xs) n,
        (linspace (listMin xs) (listMax xs) n).map (linearInterp (xs.zip ys))) := by
  have hnot : ¬ xs.length < 2 := by omega
  simp only [smooth_curve, if_neg hnot, hd]

unseal Rat.mul Rat.inv Rat.add Rat.sub in
/-- Witness for C3: a quadratic interpolation that raises is replaced by
the linear result. -/
theorem smooth_fallback_to_linear_witness :
    (2 ≤ ([0, 1] : List ℚ).length) ∧ ("quadratic" ∈ supportedMethods) ∧
      (dispatch failLib [0, 1] [0, 1]
        (linspace (listMin [0, 1]) (listMax [0, 1]) 3) "quadratic" = .error "fail") ∧
      smooth_curve failLib [0, 1] [0, 1] "quadratic" 3 =
        .ok (linspace (listMin [0, 1]) (listMax [0, 1]) 3,
          (linspace (listMin [0, 1]) (listMax [0, 1]) 3).map
            (linearInterp (List.zip [0, 1] [0, 1]))) :=
  ⟨by decide, by decide, by decide,
   smooth_fallback_to_linear failLib [0, 1] [0, 1] "quadratic" 3 "fail"
     (by decide) (by decide) (by decide)⟩

/-- C4: when the parsed x values are not already strictly increasing, the
parser returns the full point set stably sorted by x: the output points
are a permutation of the parsed points, pairwise ordered by x, and the
points carrying any given x value keep their original relative order. -/
theorem parser_sorts_stably (input : List Char) (pts : List (ℚ × ℚ))
    (hp : parseLines 1 (splitOnChar '\n' (strip input)) = .ok pts)
    (hlen : 2 ≤ pts.length)
    (hsi : strictlyIncreasing (pts.map Prod.fst) = false) :
    ∃ spts : List (ℚ × ℚ),
      parse_input_data input = .ok (spts.map Prod.fst, spts.map Prod.snd) ∧
        spts.Perm pts ∧ spts.Pairwise keyLE ∧
        ∀ q : ℚ, spts.filter (fun p => decide (p.1 = q)) =
          pts.filter (fun p => decide (p.1 = q)) :=
  ⟨pts.insertionSort keyLE,
    parse_input_data_ok_sorted hp (by omega) hsi,
    List.perm_insertionSort keyLE pts,
    List.sorted_insertionSort keyLE pts,
    fun q => insertionSort_filter_key pts q⟩

unseal Rat.mul Rat.inv Rat.add Rat.sub in
/-- Witness for C4 at the out-of-order spec example
`"3 9\n1 1\n2 4"`, which returns `x=[1,2,3], y=[1,4,9]`. -/
theorem parser_sorts_stably_witness :
    (parse_input_data "3 9\n1 1\n2 4".toList = .ok ([1, 2, 3], [1, 4, 9])) ∧
      ∃ spts : List (ℚ × ℚ),
        parse_input_data "3 9\n1 1\n2 4".toList =
          .ok (spts.map Prod.fst, spts.map Prod.snd) ∧
          spts.Perm [(3, 9), (1, 1), (2, 4)] ∧ spts.Pairwise keyLE ∧
          ∀ q : ℚ, spts.filter (fun p => decide (p.1 = q)) =
            ([(3, 9), (1, 1), (2, 4)] : List (ℚ × ℚ)).filter
              (fun p => decide (p.1 = q)) :=
  ⟨by decide,
   parser_sorts_stably "3 9\n1 1\n2 4".toList [(3, 9), (1, 1), (2, 4)]
     (by decide) (by decide) (by decide)⟩

unseal Rat.mul Rat.inv Rat.add Rat.sub in
/-- C5 counterexample: on `"abc 1"` the parse error carries the offending
token `"abc"` (the text Python's `float` exception names), not the whole
line text `"abc 1"` — so the error does not name the offending line text. -/
theorem parser_float_error_token_not_line :
    parse_input_data "abc 1".toList = .error (.parseError 1 "abc".toList) ∧
      "abc".toList ≠ "abc 1".toList := by decide

/-- C5 (amended): when the first failing line of the input fails float
conversion, the parser fails with a `parseError` naming that line's
1-based number and the offending token (the token `float` rejected) —
the line number is correct, but the error carries the token rather than
the whole line text. -/
theorem parser_float_error_line_number (input : List Char)
    (pre post : List (List Char)) (l t : List Char)
    (hsplit : splitOnChar '\n' (strip input) = pre ++ l :: post)
    (hpre : ∀ l' ∈ pre,
      lineSkipped l' = true ∨ ∃ p, ∀ k, parseLine k (strip l') = .ok p)
    (hl : lineSkipped l = false)
    (ht : floatFailToken (strip l) = some t) :
    parse_input_data input = .error (.parseError (1 + pre.length) t) := by
  unfold parse_input_data
  rw [hsplit, parseLines_fail_at t pre 1 l post hpre hl ht]

unseal Rat.mul Rat.inv Rat.add Rat.sub in
/-- Witness for C5 (amended): in a three-line input whose first two lines
are a comment and a valid point, the bad third line `"abc 1"` is reported
as line 3 with token `"abc"`. -/
theorem parser_float_error_line_number_witness :
    parse_input_data "# c\n1 2\nabc 1".toList =
      .error (.parseError 3 "abc".toList) := by
  have h := parser_float_error_line_number "# c\n1 2\nabc 1".toList
    ["# c".toList, "1 2".toList] [] "abc 1".toList "abc".toList
    (by decide)
    (by
      intro l' hl'
      simp only [List.mem_cons, List.not_mem_nil, or_false] at hl'
      rcases hl' with rfl | rfl
      · exact Or.inl (by decide)
      · exact Or.inr ⟨(1, 2), fun k => rfl⟩)
    (by decide) (by decide)
  exact h

/-- C6: the parser tries the separators space, comma, tab, semicolon in
priority order and splits each line with the first separator yielding at
least two tokens; on the mixed-separator spec example it returns
`x=[1,3,5], y=[2,4,6]`. -/
theorem parser_separator_priority (line : List Char) (s : Char)
    (h : seps.find? (fun sep => decide (2 ≤ (splitOnChar sep line).length)) = some s) :
    splitAny line = splitOnChar s line ∧ 2 ≤ (splitOnChar s line).length := by
  have hpos : ∀ (c : Char) (rest : List Char),
      2 ≤ (splitOnChar c line).length →
      List.find? (fun sep => decide (2 ≤ (splitOnChar sep line).length))
        (c :: rest) = some c :=
    fun c rest hc => List.find?_cons_of_pos rest (decide_eq_true hc)
  have hneg : ∀ (c : Char) (rest : List Char),
      ¬ 2 ≤ (splitOnChar c line).length →
      List.find? (fun sep => decide (2 ≤ (splitOnChar sep line).length))
        (c :: rest) =
        List.find? (fun sep => decide (2 ≤ (splitOnChar sep line).length)) rest :=
    fun c rest hc => List.find?_cons_of_neg rest (by simpa using hc)
  rw [seps] at h
  by_cases h1 : 2 ≤ (splitOnChar ' ' line).length
  · rw [hpos ' ' _ h1] at h
    simp only [Option.some.injEq] at h
    subst h
    exact ⟨by simp [splitAny, h1], h1⟩
  · rw [hneg ' ' _ h1] at h
    by_cases h2 : 2 ≤ (splitOnChar ',' line).length
    · rw [hpos ',' _ h2] at h
      simp only [Option.some.injEq] at h
      subst h
      exact ⟨by simp [splitAny, h1, h2], h2⟩
    · rw [hneg ',' _ h2] at h
      by_cases h3 : 2 ≤ (splitOnChar '\t' line).length
      · rw [hpos '\t' _ h3] at h
        simp only [Option.some.injEq] at h
        subst h
        exact ⟨by simp [splitAny, h1, h2, h3], h3⟩
      · rw [hneg '\t' _ h3] at h
        by_cases h4 : 2 ≤ (splitOnChar ';' line).length
        · rw [hpos ';' _ h4] at h
          simp only [Option.some.injEq] at h
          subst h
          exact ⟨by simp [splitAny, h1, h2, h3], h4⟩
        · rw [hneg ';' _ h4] at h
          exact absurd h (by simp)

unseal Rat.mul Rat.inv Rat.add Rat.sub in
/-- Witness for C6: on `"5\t6"` the first separator yielding two tokens is
the tab; and the full mixed-separator spec example parses to
`x=[1,3,5], y=[2,4,6]`. -/
theorem parser_separator_priority_witness :
    (seps.find? (fun sep => decide (2 ≤ (splitOnChar sep "5\t6".toList).length))
        = some '\t') ∧
      (splitAny "5\t6".toList = splitOnChar '\t' "5\t6".toList ∧
        2 ≤ (splitOnChar '\t' "5\t6".toList).length) ∧
      parse_input_data "1,2\n3 4\n5\t6".toList = .ok ([1, 3, 5], [2, 4, 6]) :=
  ⟨by decide, parser_separator_priority "5\t6".toList '\t' (by decide), by decide⟩

/-- C8: for every point series with at least two points and every
supported method (under a shape-respecting interpolation library),
`smooth_curve` returns exactly `num_points` samples whose x values follow
the even-spacing formula over `[min x, max x]`. -/
theorem smooth_sample_grid (lib : InterpLib) (xs ys : List ℚ) (m : String)
    (n : Nat) (h2 : 2 ≤ xs.length) (hm : m ∈ supportedMethods)
    (hwf : LibWf lib) :
    ∃ sx sy, smooth_curve lib xs ys m n = .ok (sx, sy) ∧
      sx.length = n ∧ sy.length = n ∧
      ∀ i, i < n →
        sx[i]? = some (listMin xs +
          (listMax xs - listMin xs) * (i : ℚ) / ((n : ℚ) - 1)) := by
  have hnot : ¬ xs.length < 2 := by omega
  cases hd : dispatch lib xs ys (linspace (listMin xs) (listMax xs) n) m with
  | error e =>
    refine ⟨linspace (listMin xs) (listMax xs) n,
      (linspace (listMin xs) (listMax xs) n).map (linearInterp (xs.zip ys)),
      ?_, linspace_length _ _ _, ?_, fun i hi => linspace_getElem _ _ _ _ hi⟩
    · simp only [smooth_curve, if_neg hnot, hd]
    · rw [List.length_map, linspace_length]
  | ok sy =>
    have hlen : sy.length = (linspace (listMin xs) (listMax xs) n).length := by
      simp only [supportedMethods, List.mem_cons, List.not_mem_nil, or_false] at hm
      rcases hm with rfl | rfl | rfl | rfl
      · rw [dispatch_linear] at hd
        simp only [Except.ok.injEq] at hd
        rw [← hd, List.length_map]
      · rw [dispatch_quadratic] at hd
        exact (hwf xs ys _ sy).1 hd
      · rw [dispatch_cubic] at hd
        exact (hwf xs ys _ sy).2.1 hd
      · rw [dispatch_akima] at hd
        exact (hwf xs ys _ sy).2.2 hd
    refine ⟨linspace (listMin xs) (listMax xs) n, sy, ?_,
      linspace_length _ _ _, ?_, fun i hi => linspace_getElem _ _ _ _ hi⟩
    · simp only [smooth_curve, if_neg hnot, hd]
    · rw [hlen, linspace_length]

unseal Rat.mul Rat.inv Rat.add Rat.sub in
/-- Witness for C8 at the linear spec example: points `(0,0),(1,1)` with
3 samples give `sx = [0, 1/2, 1]` and `sy = [0, 1/2, 1]`. -/
theorem smooth_sample_grid_witness :
    (2 ≤ ([0, 1] : List ℚ).length) ∧ ("linear" ∈ supportedMethods) ∧
      LibWf failLib ∧
      (smooth_curve failLib [0, 1] [0, 1] "linear" 3 =
        .ok ([0, 1/2, 1], [0, 1/2, 1])) ∧
      ∃ sx sy, smooth_curve failLib [0, 1] [0, 1] "linear" 3 = .ok (sx, sy) ∧
        sx.length = 3 ∧ sy.length = 3 ∧
        ∀ i : ℕ, i < 3 →
          sx[i]? = some (listMin [0, 1] +
            (listMax [0, 1] - listMin [0, 1]) * ((i : ℕ) : ℚ) / (((3 : ℕ) : ℚ) - 1)) :=
  ⟨by decide, by decide, failLib_wf, by decide,
   smooth_sample_grid failLib [0, 1] [0, 1] "linear" 3
     (by decide) (by decide) failLib_wf⟩

end DrawCurve
